import Mathlib

/-!
Verification of the snowflake-timestamp extractor (`dissecting_snowflakes.py`).

The script is a straight-line program; we embed its computational content:
identifier normalization (`int(...)` falling back to `base64.urlsafe_b64decode`),
bit-field extraction (`>>` plus epoch offset), the `guess_timestamp_format`
classification chain, and the per-format decoders.  Python arbitrary-precision
integers are `ℤ`/`ℕ`; Python `float` true division is modelled exactly over `ℚ`
(every concrete value used in the theorems below is either exactly
representable as an IEEE double or the stated property is insensitive to the
final rounding step); fallible operations return `Except PyExn`.

The behavior of the CPython library calls the script makes
(`datetime.datetime.utcfromtimestamp`, `datetime + timedelta`,
`base64.urlsafe_b64decode`, `int(str)`) is embedded from their documented
semantics on 64-bit Linux CPython, with the numeric thresholds of the
`datetime` conversions taken from that platform (year range 1..9999 for a
`datetime`; `gmtime` failing with `OSError` beyond `tm_year : int`; values
outside `time_t` raising `OverflowError`).
-/

namespace Snowflake

instance {ε α : Type} [DecidableEq ε] [DecidableEq α] : DecidableEq (Except ε α) := fun x y =>
  match x, y with
  | .ok a, .ok b => if h : a = b then .isTrue (by rw [h]) else .isFalse (by simp [h])
  | .error a, .error b => if h : a = b then .isTrue (by rw [h]) else .isFalse (by simp [h])
  | .ok _, .error _ => .isFalse (by simp)
  | .error _, .ok _ => .isFalse (by simp)

/-- Kinds of Python exceptions the embedded fragments can raise.
`binasciiError` stands for `binascii.Error` (a `ValueError` subclass) raised by
base64 decoding; the others are the builtin exception types. -/
inductive PyExn
  | valueError
  | overflowError
  | osError
  | binasciiError
  deriving DecidableEq

/-- Result of one of the `decode_*` functions: the seconds-since-Unix-epoch
value handed to the calendar conversion, and the format label the function
returns as its second tuple component. -/
structure Decoded where
  seconds : ℚ
  label : String
  deriving DecidableEq

/-- Model of `datetime.datetime.utcfromtimestamp(q)` on 64-bit Linux CPython:
succeeds for instants in years 1..9999 (seconds in
[-62135596800, 253402300800)); raises `ValueError` ("year ... is out of
range") when `gmtime` succeeds but the year leaves 1..9999; raises `OSError`
when `gmtime` itself fails (`tm_year` overflows a C `int`); raises
`OverflowError` ("timestamp out of range for platform time_t") outside the
64-bit `time_t` range.  The positive `OSError`/`ValueError` boundary
67768036191676799 and its negative counterpart -67768040609740800 are the
measured `gmtime` limits on this platform. -/
def pyUtcFromTimestamp (q : ℚ) : Except PyExn ℚ :=
  if q < -(2 ^ 63) ∨ (2 ^ 63 : ℚ) ≤ q then .error .overflowError
  else if q < -67768040609740800 ∨ (67768036191676799 : ℚ) < q then .error .osError
  else if q < -62135596800 ∨ (253402300800 : ℚ) ≤ q then .error .valueError
  else .ok q

/-- Model of `datetime.datetime(1970, 1, 1) + datetime.timedelta(milliseconds=ms)`:
out-of-range results raise `OverflowError` (either "date value out of range"
from the addition or the C-conversion overflow inside `timedelta`); in range it
yields the instant `ms / 1000` seconds after the Unix epoch. -/
def pyEpochPlusMilliseconds (ms : ℚ) : Except PyExn ℚ :=
  if ms / 1000 < -62135596800 ∨ (253402300800 : ℚ) ≤ ms / 1000 then .error .overflowError
  else .ok (ms / 1000)

/-- `decode_epoch_seconds`: `datetime.datetime.utcfromtimestamp(float(seconds))`,
labelled `'Epoch seconds'`. -/
def decode_epoch_seconds (seconds : ℤ) : Except PyExn Decoded :=
  (pyUtcFromTimestamp (seconds : ℚ)).map (fun q => ⟨q, "Epoch seconds"⟩)

/-- `decode_epoch_milliseconds`: `datetime.datetime(1970,1,1) +
datetime.timedelta(milliseconds=float(milliseconds))`, labelled
`'Epoch milliseconds'`.  (The trailing-zero trimming of the rendered string is
presentation and is not part of the numeric model.) -/
def decode_epoch_milliseconds (milliseconds : ℤ) : Except PyExn Decoded :=
  (pyEpochPlusMilliseconds (milliseconds : ℚ)).map (fun q => ⟨q, "Epoch milliseconds"⟩)

/-- `decode_epoch_ten_microseconds`:
`datetime.datetime.utcfromtimestamp(float(ten_microseconds) / 100000)`,
labelled `'Epoch ten-microsecond increments'`.  (Defined in the script but
never called by `guess_timestamp_format`.) -/
def decode_epoch_ten_microseconds (ten_microseconds : ℤ) : Except PyExn Decoded :=
  (pyUtcFromTimestamp ((ten_microseconds : ℚ) / 100000)).map
    (fun q => ⟨q, "Epoch ten-microsecond increments"⟩)

/-- `decode_epoch_microseconds`:
`datetime.datetime.utcfromtimestamp(float(microseconds) / 1000000)`, labelled
`'Epoch microseconds'`. -/
def decode_epoch_microseconds (microseconds : ℤ) : Except PyExn Decoded :=
  (pyUtcFromTimestamp ((microseconds : ℚ) / 1000000)).map
    (fun q => ⟨q, "Epoch microseconds"⟩)

/-- The seconds value `decode_webkit` hands to `utcfromtimestamp`:
`(float(microseconds) / 1000000) - 11644473600`. -/
def webkit_seconds (microseconds : ℤ) : ℚ :=
  (microseconds : ℚ) / 1000000 - 11644473600

/-- `decode_webkit`, labelled `'Webkit'`. -/
def decode_webkit (microseconds : ℤ) : Except PyExn Decoded :=
  (pyUtcFromTimestamp (webkit_seconds microseconds)).map (fun q => ⟨q, "Webkit"⟩)

/-- The seconds value `decode_windows_filetime` hands to `utcfromtimestamp`:
`(float(intervals) / 10000000) - 11644473600`. -/
def windows_filetime_seconds (intervals : ℤ) : ℚ :=
  (intervals : ℚ) / 10000000 - 11644473600

/-- `decode_windows_filetime`, labelled `'Windows FileTime'`. -/
def decode_windows_filetime (intervals : ℤ) : Except PyExn Decoded :=
  (pyUtcFromTimestamp (windows_filetime_seconds intervals)).map
    (fun q => ⟨q, "Windows FileTime"⟩)

/-- The seconds value `decode_datetime_ticks` computes:
`(ticks - 621355968000000000) / 10000000` (Python true division). -/
def datetime_ticks_seconds (ticks : ℤ) : ℚ :=
  ((ticks : ℚ) - 621355968000000000) / 10000000

/-- `decode_datetime_ticks`, labelled `'DateTime ticks'`.  The script calls
the local-time `datetime.datetime.fromtimestamp` here; its failure thresholds
differ from the UTC variant only by the UTC offset of the local zone, which is
irrelevant for every value this branch can receive, so the same conversion
model is used. -/
def decode_datetime_ticks (ticks : ℤ) : Except PyExn Decoded :=
  (pyUtcFromTimestamp (datetime_ticks_seconds ticks)).map
    (fun q => ⟨q, "DateTime ticks"⟩)

/-- `guess_timestamp_format`: the `if`/`elif` chain of inclusive range tests,
in source order, falling through to `decode_epoch_seconds`.  Note the branch
commented "Epoch ten microsecond increments" in the source calls
`decode_epoch_microseconds`. -/
def guess_timestamp_format (timestamp : ℤ) : Except PyExn Decoded :=
  if 130645440000000000 ≤ timestamp ∧ timestamp ≤ 133801632000000000 then
    decode_windows_filetime timestamp
  else if 635556672000000000 ≤ timestamp ∧ timestamp ≤ 638712864000000000 then
    decode_datetime_ticks timestamp
  else if 13064544000000000 ≤ timestamp ∧ timestamp ≤ 13380163200000000 then
    decode_webkit timestamp
  else if 1400070400000000 ≤ timestamp ∧ timestamp ≤ 1735689600000000 then
    decode_epoch_microseconds timestamp
  else if 140007040000000 ≤ timestamp ∧ timestamp ≤ 173568960000000 then
    decode_epoch_microseconds timestamp
  else if 1000070400000 ≤ timestamp ∧ timestamp ≤ 1735689600000 then
    decode_epoch_milliseconds timestamp
  else
    decode_epoch_seconds timestamp

/-- The classification chain of `guess_timestamp_format` as an ordered table:
each entry is the inclusive range of one branch together with the decoder that
branch invokes, in the order the source tests them. -/
def rule_table : List (ℤ × ℤ × (ℤ → Except PyExn Decoded)) :=
  [(130645440000000000, 133801632000000000, decode_windows_filetime),
   (635556672000000000, 638712864000000000, decode_datetime_ticks),
   (13064544000000000, 13380163200000000, decode_webkit),
   (1400070400000000, 1735689600000000, decode_epoch_microseconds),
   (140007040000000, 173568960000000, decode_epoch_microseconds),
   (1000070400000, 1735689600000, decode_epoch_milliseconds)]

/-- First-match scan of an ordered rule table with inclusive bounds, falling
through to `decode_epoch_seconds`. -/
def scan_rules : List (ℤ × ℤ × (ℤ → Except PyExn Decoded)) → ℤ → Except PyExn Decoded
  | [], t => decode_epoch_seconds t
  | (lo, hi, f) :: rest, t => if lo ≤ t ∧ t ≤ hi then f t else scan_rules rest t

/-- The extraction step of the main script:
`ts_bits = snowflake_int >> (snowflake_length - number_of_ts_bits)` followed by
`epoch_adjusted_ts = int(ts_bits) + epoch_offset`.  A negative shift count
raises `ValueError` in Python; otherwise `>>` on a Python `int` is a floor
shift, i.e. floor division by the corresponding power of two. -/
def extractTs (snowflake_int : ℤ) (snowflake_length : ℕ)
    (number_of_ts_bits epoch_offset : ℤ) : Except PyExn ℤ :=
  if (snowflake_length : ℤ) - number_of_ts_bits < 0 then .error .valueError
  else
    .ok (Int.fdiv snowflake_int
          (2 ^ ((snowflake_length : ℤ) - number_of_ts_bits).toNat) + epoch_offset)

/-- The `manual` branch of the argument handling: `if not number_of_ts_bits`
prints a message and exits, which fires exactly when `--ts_bits` is absent
(`None`) or equals `0` (both falsy). -/
def manual_requires_ts_bits (ts_bits : Option ℤ) : Bool :=
  match ts_bits with
  | none => true
  | some n => n == 0

/-- Outcome of the final `try`/`except OSError` block of the script. -/
inductive DecodeOutcome
  | printed (d : Decoded)
  | tooBig
  | crashed (e : PyExn)
  deriving DecidableEq

/-- The final step of the script: call `guess_timestamp_format` inside
`try: ... except OSError: print('TS too big')`.  Only `OSError` is caught;
any other exception propagates out of the program. -/
def decode_step (t : ℤ) : DecodeOutcome :=
  match guess_timestamp_format t with
  | .ok d => .printed d
  | .error .osError => .tooBig
  | .error e => .crashed e

/-- Modelled from the spec's conversion formula, with exact integer division as
the spec's claim words it: `seconds_since_unix_epoch = (candidate -
origin_to_unix_epoch_offset_in_same_unit) / units_per_second`, the division
being exact integer (Euclidean) division.  Compared below with the source's
true-division computations. -/
def spec_integer_division_seconds (candidate originOffset unitsPerSecond : ℤ) : ℤ :=
  (candidate - originOffset) / unitsPerSecond

/-- The standard base64 alphabet; the index of a character is its 6-bit value. -/
def base64_alphabet : List Char :=
  ['A', 'B', 'C', 'D', 'E', 'F', 'G', 'H', 'I', 'J', 'K', 'L', 'M',
   'N', 'O', 'P', 'Q', 'R', 'S', 'T', 'U', 'V', 'W', 'X', 'Y', 'Z',
   'a', 'b', 'c', 'd', 'e', 'f', 'g', 'h', 'i', 'j', 'k', 'l', 'm',
   'n', 'o', 'p', 'q', 'r', 's', 't', 'u', 'v', 'w', 'x', 'y', 'z',
   '0', '1', '2', '3', '4', '5', '6', '7', '8', '9', '+', '/']

/-- The URL-safe base64 alphabet (`-` and `_` in place of `+` and `/`). -/
def urlsafe_alphabet : List Char :=
  ['A', 'B', 'C', 'D', 'E', 'F', 'G', 'H', 'I', 'J', 'K', 'L', 'M',
   'N', 'O', 'P', 'Q', 'R', 'S', 'T', 'U', 'V', 'W', 'X', 'Y', 'Z',
   'a', 'b', 'c', 'd', 'e', 'f', 'g', 'h', 'i', 'j', 'k', 'l', 'm',
   'n', 'o', 'p', 'q', 'r', 's', 't', 'u', 'v', 'w', 'x', 'y', 'z',
   '0', '1', '2', '3', '4', '5', '6', '7', '8', '9', '-', '_']

def lookupIdx : List Char → ℕ → Char → Option ℕ
  | [], _, _ => none
  | a :: rest, i, c => if a = c then some i else lookupIdx rest (i + 1) c

/-- The 6-bit value of a standard-alphabet base64 character, `none` for any
other character (including `=`). -/
def b64_char_val (c : Char) : Option ℕ := lookupIdx base64_alphabet 0 c

/-- The character translation `urlsafe_b64decode` applies before decoding:
`-` ↦ `+`, `_` ↦ `/`. -/
def urlsafe_translate (c : Char) : Char :=
  if c = '-' then '+' else if c = '_' then '/' else c

/-- Reassemble bytes from a list of 6-bit values, MSB first, dropping the
final 2 or 4 leftover bits when the count is 3 or 2 modulo 4 (the behavior of
`binascii.a2b_base64` at end of input with padding present). -/
def quads_to_bytes : List ℕ → List ℕ
  | a :: b :: c :: d :: rest =>
      (a * 4 + b / 16) :: ((b % 16) * 16 + c / 4) :: ((c % 4) * 64 + d) ::
        quads_to_bytes rest
  | [a, b] => [a * 4 + b / 16]
  | [a, b, c] => [a * 4 + b / 16, (b % 16) * 16 + c / 4]
  | _ => []

/-- Model of non-strict `binascii.a2b_base64` for the inputs this program can
produce (the script always appends `'=='`, so padding is always present and
always trailing): characters outside the base64 alphabet — including the `=`
padding and the appended excess padding — are discarded; if the number of data
characters is 1 more than a multiple of 4 the decoder raises
`binascii.Error`; otherwise the data characters decode MSB-first into
`⌊6·n/8⌋` bytes. -/
def a2b_base64 (cs : List Char) : Except PyExn (List ℕ) :=
  let vals := cs.filterMap b64_char_val
  if vals.length % 4 = 1 then .error .binasciiError
  else .ok (quads_to_bytes vals)

/-- `base64.urlsafe_b64decode(s)`: translate `-`/`_` and decode. -/
def urlsafe_b64decode (s : String) : Except PyExn (List ℕ) :=
  a2b_base64 (s.data.map urlsafe_translate)

/-- `int.from_bytes(bytes, 'big')`. -/
def int_from_bytes_be (bs : List ℕ) : ℕ := bs.foldl (fun a b => a * 256 + b) 0

def decimal_digit_val (c : Char) : Option ℕ :=
  if '0' ≤ c ∧ c ≤ '9' then some (c.toNat - '0'.toNat) else none

def digits_fold : List Char → ℕ → Option ℕ
  | [], acc => some acc
  | c :: rest, acc =>
      match decimal_digit_val c with
      | some d => digits_fold rest (acc * 10 + d)
      | none => none

def digits_value (cs : List Char) : Option ℕ :=
  if cs.isEmpty then none else digits_fold cs 0

/-- Model of Python `int(s)` for base-10 string inputs, over the character
list: an optional sign followed by a nonempty run of ASCII digits.  (CPython
additionally strips surrounding whitespace and allows `_` separators between
digits; no input considered here uses either.) -/
def py_int_parse_chars : List Char → Option ℤ
  | [] => none
  | c :: rest =>
      if c = '-' then (digits_value rest).map (fun n => -(n : ℤ))
      else if c = '+' then (digits_value rest).map (fun n => (n : ℤ))
      else (digits_value (c :: rest)).map (fun n => (n : ℤ))

/-- Model of Python `int(s)` for base-10 string inputs. -/
def py_int_parse (s : String) : Option ℤ :=
  py_int_parse_chars s.data

/-- The identifier-normalization block (lines 244–252): `snowflake_length`
starts at 64; `int(snowflake)` is attempted, and on any failure the input is
decoded with `base64.urlsafe_b64decode(snowflake + '==')`, the length becomes
`8 * len(bytes)`, and the value `int.from_bytes(bytes, 'big')`.  Returns the
pair `(snowflake_length, snowflake_int)`. -/
def snowflake_normalize (s : String) : Except PyExn (ℕ × ℤ) :=
  match py_int_parse s with
  | some n => .ok (64, n)
  | none =>
      match urlsafe_b64decode (s ++ "==") with
      | .ok bs => .ok (8 * bs.length, (int_from_bytes_be bs : ℤ))
      | .error e => .error e

def urlsafe_char (n : ℕ) : Char := urlsafe_alphabet.getD n '?'

/-- Model of `base64.urlsafe_b64encode` (used only to state the base64
ingestion scenario): 3-byte groups become 4 alphabet characters; a trailing
2-byte group becomes 3 characters and one `=`; a trailing single byte becomes
2 characters and two `=`. -/
def b64_encode_groups : List ℕ → List Char
  | b0 :: b1 :: b2 :: rest =>
      urlsafe_char (b0 / 4) :: urlsafe_char ((b0 % 4) * 16 + b1 / 16) ::
        urlsafe_char ((b1 % 16) * 4 + b2 / 64) :: urlsafe_char (b2 % 64) ::
        b64_encode_groups rest
  | [b0, b1] => [urlsafe_char (b0 / 4), urlsafe_char ((b0 % 4) * 16 + b1 / 16),
      urlsafe_char ((b1 % 16) * 4), '=']
  | [b0] => [urlsafe_char (b0 / 4), urlsafe_char ((b0 % 4) * 16), '=', '=']
  | [] => []

def urlsafe_b64encode (bs : List ℕ) : String := ⟨b64_encode_groups bs⟩

def dec_digit_char (d : ℕ) : Char := Char.ofNat (48 + d)

/-- The base-10 digit characters of `n`, most significant first. -/
def dec_digits (n : ℕ) : List Char :=
  if h : n < 10 then [dec_digit_char n]
  else dec_digits (n / 10) ++ [dec_digit_char (n % 10)]
  termination_by n
  decreasing_by omega

/-- The canonical base-10 decimal literal of a natural number. -/
def nat_to_decimal_string (n : ℕ) : String := ⟨dec_digits n⟩

end Snowflake

namespace Snowflake

/-- C1: for `0 ≤ value < 2^total_bits` and `1 ≤ ts_bits ≤ total_bits`, the
extraction step returns `(value >> (total_bits - ts_bits)) + epoch_offset`,
and this result lies in `[epoch_offset, epoch_offset + 2^ts_bits)`. -/
theorem extract_shift_and_range (v total ts : ℕ) (off : ℤ)
    (h1 : 1 ≤ ts) (h2 : ts ≤ total) (hv : v < 2 ^ total) :
    extractTs (v : ℤ) total (ts : ℤ) off = .ok (((v >>> (total - ts) : ℕ) : ℤ) + off)
    ∧ off ≤ ((v >>> (total - ts) : ℕ) : ℤ) + off
    ∧ ((v >>> (total - ts) : ℕ) : ℤ) + off < off + 2 ^ ts := by
  have hk : (((total : ℤ) - (ts : ℤ)).toNat) = total - ts := by omega
  have hshift : v >>> (total - ts) < 2 ^ ts := by
    rw [Nat.shiftRight_eq_div_pow]
    apply Nat.div_lt_of_lt_mul
    calc v < 2 ^ total := hv
    _ = 2 ^ (total - ts) * 2 ^ ts := by rw [← pow_add]; congr 1; omega
  have hxc : ((v >>> (total - ts) : ℕ) : ℤ) < 2 ^ ts := by exact_mod_cast hshift
  have hx0 : (0 : ℤ) ≤ ((v >>> (total - ts) : ℕ) : ℤ) := Int.natCast_nonneg _
  refine ⟨?_, by linarith, by linarith⟩
  unfold extractTs
  rw [if_neg (by omega)]
  congr 1
  rw [hk, Int.fdiv_eq_ediv _ (by positivity), Nat.shiftRight_eq_div_pow]
  push_cast
  rfl

/-- Witness for `extract_shift_and_range` at `value = 7`, `total_bits = 4`,
`ts_bits = 2`, `epoch_offset = 5`: the top two bits of `0111` are `01`, so the
candidate is `1 + 5 = 6 ∈ [5, 5 + 4)`. -/
theorem extract_shift_and_range_witness :
    (1 ≤ 2 ∧ 2 ≤ 4 ∧ 7 < 2 ^ 4)
    ∧ (extractTs (7 : ℤ) 4 2 5 = .ok 6 ∧ (5 : ℤ) ≤ 6 ∧ (6 : ℤ) < 5 + 2 ^ 2) := by
  refine ⟨by decide, ?_⟩
  simpa using extract_shift_and_range 7 4 2 5 (by decide) (by decide) (by decide)

/-- C2: `guess_timestamp_format` scans the encoding-rule ranges in the fixed
source order with both bounds inclusive and applies the first (here: the only)
rule whose range contains the candidate; a candidate exactly equal to a lower
or upper bound selects that rule, and a candidate in no listed range falls
through to `decode_epoch_seconds`. -/
theorem classification_first_match :
    (∀ t : ℤ, guess_timestamp_format t = scan_rules rule_table t)
    ∧ (∀ lo hi f, (lo, hi, f) ∈ rule_table →
        guess_timestamp_format lo = f lo ∧ guess_timestamp_format hi = f hi)
    ∧ (∀ t : ℤ, (∀ lo hi f, (lo, hi, f) ∈ rule_table → ¬(lo ≤ t ∧ t ≤ hi)) →
        guess_timestamp_format t = decode_epoch_seconds t) := by
  refine ⟨fun _ => rfl, ?_, ?_⟩
  · intro lo hi f hmem
    simp only [rule_table, List.mem_cons, List.not_mem_nil, or_false] at hmem
    rcases hmem with h | h | h | h | h | h <;> cases h <;> exact ⟨rfl, rfl⟩
  · intro t h
    have h1 := h _ _ _ (show _ ∈ rule_table from List.Mem.head _)
    have h2 := h _ _ _ (show _ ∈ rule_table from List.Mem.tail _ (List.Mem.head _))
    have h3 := h _ _ _
      (show _ ∈ rule_table from List.Mem.tail _ (List.Mem.tail _ (List.Mem.head _)))
    have h4 := h _ _ _
      (show _ ∈ rule_table from
        List.Mem.tail _ (List.Mem.tail _ (List.Mem.tail _ (List.Mem.head _))))
    have h5 := h _ _ _
      (show _ ∈ rule_table from
        List.Mem.tail _ (List.Mem.tail _ (List.Mem.tail _ (List.Mem.tail _
          (List.Mem.head _)))))
    have h6 := h _ _ _
      (show _ ∈ rule_table from
        List.Mem.tail _ (List.Mem.tail _ (List.Mem.tail _ (List.Mem.tail _
          (List.Mem.tail _ (List.Mem.head _))))))
    unfold guess_timestamp_format
    rw [if_neg h1, if_neg h2, if_neg h3, if_neg h4, if_neg h5, if_neg h6]

/-- Witness for `classification_first_match`: the lower FileTime bound selects
the FileTime rule, the upper milliseconds bound selects the milliseconds rule,
and a value below every range falls through to `decode_epoch_seconds`. -/
theorem classification_first_match_witness :
    guess_timestamp_format 130645440000000000 = decode_windows_filetime 130645440000000000
    ∧ guess_timestamp_format 1735689600000 = decode_epoch_milliseconds 1735689600000
    ∧ guess_timestamp_format 999 = decode_epoch_seconds 999 := by
  have m1 : ((130645440000000000 : ℤ), (133801632000000000 : ℤ),
      decode_windows_filetime) ∈ rule_table := List.Mem.head _
  have m6 : ((1000070400000 : ℤ), (1735689600000 : ℤ),
      decode_epoch_milliseconds) ∈ rule_table :=
    List.Mem.tail _ (List.Mem.tail _ (List.Mem.tail _ (List.Mem.tail _
      (List.Mem.tail _ (List.Mem.head _)))))
  have hno : ∀ lo hi f, (lo, hi, f) ∈ rule_table → ¬(lo ≤ (999 : ℤ) ∧ (999 : ℤ) ≤ hi) := by
    intro lo hi f hmem
    simp only [rule_table, List.mem_cons, List.not_mem_nil, or_false] at hmem
    rcases hmem with h | h | h | h | h | h <;> cases h <;> omega
  exact ⟨(classification_first_match.2.1 _ _ _ m1).1,
         (classification_first_match.2.1 _ _ _ m6).2,
         classification_first_match.2.2 999 hno⟩

/-- C3: on the "Epoch ten microsecond increments" branch (candidate in
[140007040000000, 173568960000000]) the source calls
`decode_epoch_microseconds`, so the result is labelled `'Epoch microseconds'`
and converted at 1000000 units per second; the repository's own
`decode_epoch_ten_microseconds` (100000 units per second) would give a
different instant and label.  Shown at the branch's lower bound. -/
theorem ten_microsecond_branch_result :
    guess_timestamp_format 140007040000000 = decode_epoch_microseconds 140007040000000
    ∧ decode_epoch_microseconds 140007040000000 = .ok ⟨140007040, "Epoch microseconds"⟩
    ∧ decode_epoch_ten_microseconds 140007040000000
        = .ok ⟨1400070400, "Epoch ten-microsecond increments"⟩ := by
  refine ⟨rfl, ?_, ?_⟩
  · have h : (140007040000000 : ℚ) / 1000000 = 140007040 := by norm_num
    simp only [decode_epoch_microseconds, pyUtcFromTimestamp, h]
    norm_num [Except.map]
  · have h : (140007040000000 : ℚ) / 100000 = 1400070400 := by norm_num
    simp only [decode_epoch_ten_microseconds, pyUtcFromTimestamp, h]
    norm_num [Except.map]

/-- C4 counterexample: `decode_datetime_ticks` computes its seconds value with
true division, so at `ticks = 621355968005000000` (half a second past the Unix
epoch) it obtains `1/2`, not the `0` that the exact-integer-division formula of
the claim produces. -/
theorem ticks_integer_division_refuted :
    datetime_ticks_seconds 621355968005000000
      ≠ ((spec_integer_division_seconds 621355968005000000 621355968000000000
            10000000 : ℤ) : ℚ) := by
  intro h
  unfold datetime_ticks_seconds spec_integer_division_seconds at h
  have h0 : ((621355968005000000 : ℤ) - 621355968000000000) / 10000000 = 0 := by decide
  rw [h0] at h
  norm_num at h

/-- C4 amended: the three converters use exactly the constants the spec names
(11644473600 seconds for the FileTime/WebKit origin, 621355968000000000 ticks
for the DateTime origin), but via true (float) division; the result agrees
with the spec's exact integer division precisely on unit counts that are whole
multiples of the units-per-second factor. -/
theorem origin_constants_and_division :
    (∀ i : ℤ, windows_filetime_seconds i = ((i : ℚ) - 11644473600 * 10000000) / 10000000)
    ∧ (∀ m : ℤ, webkit_seconds m = ((m : ℚ) - 11644473600 * 1000000) / 1000000)
    ∧ (∀ t : ℤ, datetime_ticks_seconds t = ((t : ℚ) - 621355968000000000) / 10000000)
    ∧ (∀ i : ℤ, (10000000 : ℤ) ∣ (i - 116444736000000000) →
        windows_filetime_seconds i
          = ((spec_integer_division_seconds i 116444736000000000 10000000 : ℤ) : ℚ))
    ∧ (∀ m : ℤ, (1000000 : ℤ) ∣ (m - 11644473600000000) →
        webkit_seconds m
          = ((spec_integer_division_seconds m 11644473600000000 1000000 : ℤ) : ℚ))
    ∧ (∀ t : ℤ, (10000000 : ℤ) ∣ (t - 621355968000000000) →
        datetime_ticks_seconds t
          = ((spec_integer_division_seconds t 621355968000000000 10000000 : ℤ) : ℚ)) := by
  refine ⟨?_, ?_, ?_, ?_, ?_, ?_⟩
  · intro i; unfold windows_filetime_seconds; field_simp; ring
  · intro m; unfold webkit_seconds; field_simp; ring
  · intro t; rfl
  · intro i ⟨k, hk⟩
    have hi : i = 116444736000000000 + 10000000 * k := by omega
    subst hi
    unfold windows_filetime_seconds spec_integer_division_seconds
    rw [show (116444736000000000 + 10000000 * k - 116444736000000000) = 10000000 * k
      by ring, Int.mul_ediv_cancel_left _ (by norm_num)]
    push_cast
    field_simp
    ring
  · intro m ⟨k, hk⟩
    have hm : m = 11644473600000000 + 1000000 * k := by omega
    subst hm
    unfold webkit_seconds spec_integer_division_seconds
    rw [show (11644473600000000 + 1000000 * k - 11644473600000000) = 1000000 * k
      by ring, Int.mul_ediv_cancel_left _ (by norm_num)]
    push_cast
    field_simp
    ring
  · intro t ⟨k, hk⟩
    have ht : t = 621355968000000000 + 10000000 * k := by omega
    subst ht
    unfold datetime_ticks_seconds spec_integer_division_seconds
    rw [show (621355968000000000 + 10000000 * k - 621355968000000000) = 10000000 * k
      by ring, Int.mul_ediv_cancel_left _ (by norm_num)]
    push_cast
    field_simp

/-- Witness for `origin_constants_and_division` at the three 2015 lower range
bounds, each a whole number of seconds past its origin. -/
theorem origin_constants_and_division_witness :
    windows_filetime_seconds 130645440000000000
      = ((spec_integer_division_seconds 130645440000000000 116444736000000000
            10000000 : ℤ) : ℚ)
    ∧ webkit_seconds 13064544000000000
      = ((spec_integer_division_seconds 13064544000000000 11644473600000000
            1000000 : ℤ) : ℚ)
    ∧ datetime_ticks_seconds 635556672000000000
      = ((spec_integer_division_seconds 635556672000000000 621355968000000000
            10000000 : ℤ) : ℚ) :=
  ⟨origin_constants_and_division.2.2.2.1 _ ⟨1420070400, by norm_num⟩,
   origin_constants_and_division.2.2.2.2.1 _ ⟨1420070400, by norm_num⟩,
   origin_constants_and_division.2.2.2.2.2 _ ⟨1420070400, by norm_num⟩⟩

/-- C5: the final `try`/`except OSError` catches only `OSError`, so a
candidate of `10^19` (epoch-seconds fallback, beyond `time_t`) crashes the
program with an uncaught `OverflowError`, and `2830650578623` (year 91669)
crashes with an uncaught `ValueError`, while `67768036191676800` — the one
region where `gmtime` itself fails — is caught and reported as `'TS too big'`. -/
theorem out_of_range_timestamp_crashes :
    decode_step (10 ^ 19) = .crashed .overflowError
    ∧ decode_step 67768036191676800 = .tooBig
    ∧ decode_step 2830650578623 = .crashed .valueError :=
  ⟨by decide, by decide, by decide⟩

/-- C7 counterexample: with `ts_bits = -5` (non-positive) extraction happily
returns a value (`0 + epoch_offset`), and with `ts_bits = 70 > 64` it raises a
plain Python `ValueError` (negative shift count); in neither case does any
`InvalidWidth` error exist. -/
theorem invalid_width_not_rejected :
    extractTs 12345 64 (-5) 7 = .ok 7 ∧ extractTs 12345 64 70 0 = .error .valueError := by
  constructor
  · unfold extractTs
    rw [if_neg (by omega)]
    norm_num
    decide
  · unfold extractTs
    rw [if_pos (by omega)]

/-- C7 amended: the only width validation in the program is the `manual`-mode
check that `--ts_bits` is present and nonzero (exit with a message); a
`ts_bits` larger than the total width raises an unhandled `ValueError` from
the negative shift, and a negative `ts_bits` is not rejected at all —
extraction produces `0 + epoch_offset` for any value below `2^total_bits`. -/
theorem width_validation_behavior :
    manual_requires_ts_bits none = true
    ∧ manual_requires_ts_bits (some 0) = true
    ∧ (∀ n : ℤ, n ≠ 0 → manual_requires_ts_bits (some n) = false)
    ∧ (∀ (v off ts : ℤ) (L : ℕ), (L : ℤ) < ts → extractTs v L ts off = .error .valueError)
    ∧ (∀ (v L : ℕ) (ts off : ℤ), ts < 0 → v < 2 ^ L →
        extractTs (v : ℤ) L ts off = .ok off) := by
  refine ⟨rfl, rfl, ?_, ?_, ?_⟩
  · intro n hn
    simp [manual_requires_ts_bits, hn]
  · intro v off ts L hlt
    unfold extractTs
    rw [if_pos (by omega)]
  · intro v L ts off hts hv
    unfold extractTs
    rw [if_neg (by omega)]
    have hk : L < (((L : ℤ) - ts).toNat) := by omega
    have hv2 : v < 2 ^ (((L : ℤ) - ts).toNat) :=
      lt_of_lt_of_le hv (Nat.pow_le_pow_right (by norm_num) (by omega))
    rw [Int.fdiv_eq_ediv _ (by positivity)]
    rw [show ((2 : ℤ) ^ (((L : ℤ) - ts).toNat)) = ((2 ^ (((L : ℤ) - ts).toNat) : ℕ) : ℤ)
      by push_cast; rfl]
    rw [show ((v : ℤ) / ((2 ^ (((L : ℤ) - ts).toNat) : ℕ) : ℤ)) =
        ((v / 2 ^ (((L : ℤ) - ts).toNat) : ℕ) : ℤ) from (Int.natCast_div _ _).symm]
    rw [Nat.div_eq_of_lt hv2]
    norm_num

/-- Witness for `width_validation_behavior`: `--ts_bits 5` passes the manual
check, `ts_bits = 70` on a 64-bit value raises `ValueError`, and
`ts_bits = -3` with value `99 < 2^64` yields `0 + 11`. -/
theorem width_validation_behavior_witness :
    manual_requires_ts_bits (some 5) = false
    ∧ extractTs 6789 64 70 1 = .error .valueError
    ∧ extractTs (99 : ℤ) 64 (-3) 11 = .ok 11 :=
  ⟨width_validation_behavior.2.2.1 5 (by decide),
   width_validation_behavior.2.2.2.1 6789 1 70 64 (by decide),
   width_validation_behavior.2.2.2.2 99 64 (-3) 11 (by decide) (by decide)⟩

/-- C9 counterexample: under the Twitter scheme (64 total bits, 42 timestamp
bits, offset 1288834974657) an identifier whose upper 42 bits are
1541815603966 yields the candidate 2830650578623, but that candidate exceeds
the Epoch-milliseconds upper bound 1735689600000, so classification does not
select the milliseconds rule. -/
theorem twitter_scenario_not_milliseconds :
    extractTs (1541815603966 * 2 ^ 22) 64 42 1288834974657 = .ok 2830650578623
    ∧ ¬((1000070400000 : ℤ) ≤ 2830650578623 ∧ (2830650578623 : ℤ) ≤ 1735689600000)
    ∧ guess_timestamp_format 2830650578623 ≠ decode_epoch_milliseconds 2830650578623 := by
  refine ⟨by rfl, by decide, ?_⟩
  intro h
  have h1 : guess_timestamp_format 2830650578623 = .error .valueError := by decide
  have h2 : decode_epoch_milliseconds 2830650578623
      = .ok ⟨2830650578623 / 1000, "Epoch milliseconds"⟩ := by
    simp only [decode_epoch_milliseconds, pyEpochPlusMilliseconds]
    rw [if_neg (by norm_num)]
    rfl
  rw [h1, h2] at h
  exact Except.noConfusion h

/-- C9 amended: the Twitter-scheme extraction on that identifier yields
candidate 2830650578623 = 1541815603966 + 1288834974657, which lies above
every listed range, falls through to the Epoch-seconds fallback, and that
conversion then fails (`ValueError`: year 91669 is out of range). -/
theorem twitter_scenario_falls_to_seconds :
    extractTs (1541815603966 * 2 ^ 22) 64 42 1288834974657 = .ok 2830650578623
    ∧ guess_timestamp_format 2830650578623 = decode_epoch_seconds 2830650578623
    ∧ decode_epoch_seconds 2830650578623 = .error .valueError :=
  ⟨by rfl, by rfl, by decide⟩

end Snowflake

namespace Snowflake
lemma digits_fold_append (l1 l2 : List Char) (acc v : ℕ)
    (h : digits_fold l1 acc = some v) :
    digits_fold (l1 ++ l2) acc = digits_fold l2 v := by
  induction l1 generalizing acc with
  | nil =>
    simp only [digits_fold] at h
    cases h
    simp
  | cons c rest ih =>
    simp only [List.cons_append, digits_fold] at h ⊢
    cases hd : decimal_digit_val c with
    | none => rw [hd] at h; exact Option.noConfusion h
    | some d => rw [hd] at h; exact ih _ h

lemma dec_digit_char_val : ∀ d, d < 10 → decimal_digit_val (dec_digit_char d) = some d := by
  decide

lemma digits_fold_dec_digits :
    ∀ n acc, digits_fold (dec_digits n) acc
      = some (acc * 10 ^ (dec_digits n).length + n) := by
  intro n
  induction n using Nat.strong_induction_on with
  | _ n ih =>
    intro acc
    by_cases h : n < 10
    · rw [dec_digits, dif_pos h]
      simp only [digits_fold, dec_digit_char_val n h, List.length_cons, List.length_nil]
      norm_num
    · rw [dec_digits, dif_neg h]
      rw [digits_fold_append _ _ _ _ (ih (n / 10) (by omega) acc)]
      have h10 : decimal_digit_val (dec_digit_char (n % 10)) = some (n % 10) :=
        dec_digit_char_val _ (by omega)
      simp only [digits_fold, h10, List.length_append, List.length_cons,
        List.length_nil]
      congr 1
      have hn : n / 10 * 10 + n % 10 = n := by omega
      calc (acc * 10 ^ (dec_digits (n / 10)).length + n / 10) * 10 + n % 10
          = acc * (10 ^ (dec_digits (n / 10)).length * 10) + (n / 10 * 10 + n % 10) := by
            ring
        _ = acc * 10 ^ ((dec_digits (n / 10)).length + 0 + 1) + n := by
            rw [hn]; ring
end Snowflake

namespace Snowflake
lemma dec_digits_ne_nil (n : ℕ) : dec_digits n ≠ [] := by
  rw [dec_digits]
  by_cases h : n < 10
  · rw [dif_pos h]; simp
  · rw [dif_neg h]; simp

lemma dec_digits_head_digit :
    ∀ n c rest, dec_digits n = c :: rest → (decimal_digit_val c).isSome := by
  intro n
  induction n using Nat.strong_induction_on with
  | _ n ih =>
    intro c rest hc
    by_cases h : n < 10
    · rw [dec_digits, dif_pos h] at hc
      injection hc with hc1 hc2
      rw [← hc1, dec_digit_char_val n h]
      rfl
    · rw [dec_digits, dif_neg h] at hc
      obtain ⟨c2, rest2, h2⟩ := List.exists_cons_of_ne_nil (dec_digits_ne_nil (n / 10))
      rw [h2, List.cons_append] at hc
      injection hc with hc1 hc2
      subst hc1
      exact ih (n / 10) (by omega) _ _ h2

lemma py_int_parse_decimal (n : ℕ) :
    py_int_parse (nat_to_decimal_string n) = some (n : ℤ) := by
  show py_int_parse_chars (dec_digits n) = some (n : ℤ)
  obtain ⟨c, rest, hc⟩ := List.exists_cons_of_ne_nil (dec_digits_ne_nil n)
  have hdig := dec_digits_head_digit n c rest hc
  have hm : c ≠ '-' := by
    intro e; rw [e] at hdig; exact absurd hdig (by decide)
  have hp : c ≠ '+' := by
    intro e; rw [e] at hdig; exact absurd hdig (by decide)
  rw [hc]
  simp only [py_int_parse_chars]
  rw [if_neg hm, if_neg hp]
  have hv : digits_value (c :: rest) = some n := by
    unfold digits_value
    rw [if_neg (by simp)]
    rw [← hc, digits_fold_dec_digits n 0]
    simp
  rw [hv]
  rfl

lemma digits_fold_none (cs : List Char) (c : Char) (hmem : c ∈ cs)
    (h : decimal_digit_val c = none) : ∀ acc, digits_fold cs acc = none := by
  induction cs with
  | nil => cases hmem
  | cons a rest ih =>
    intro acc
    simp only [digits_fold]
    cases hval : decimal_digit_val a with
    | none => rfl
    | some d =>
      rcases List.mem_cons.mp hmem with rfl | hmem2
      · rw [hval] at h; cases h
      · exact ih hmem2 _

lemma digits_value_none (cs : List Char) (c : Char) (hmem : c ∈ cs)
    (h : decimal_digit_val c = none) : digits_value cs = none := by
  unfold digits_value
  split
  · rfl
  · exact digits_fold_none cs c hmem h 0

lemma py_int_parse_chars_pad_none (c : Char) (rest : List Char) (h : '=' ∈ rest) :
    py_int_parse_chars (c :: rest) = none := by
  have hv : digits_value rest = none := digits_value_none _ '=' h (by decide)
  have hv2 : digits_value (c :: rest) = none :=
    digits_value_none _ '=' (List.mem_cons_of_mem _ h) (by decide)
  simp only [py_int_parse_chars]
  split_ifs <;> simp [hv, hv2]

lemma b64_char_val_urlsafe :
    ∀ v, v < 64 → b64_char_val (urlsafe_translate (urlsafe_char v)) = some v := by
  decide
end Snowflake

namespace Snowflake

/-- C10: for any 8-byte value, feeding its URL-safe base64 encoding through
identifier normalization yields the same `(total_bits, value)` pair — 64 bits
and the big-endian integer — as feeding the canonical decimal literal of that
integer, so both ingestion paths hand identical inputs to extraction. -/
theorem base64_and_decimal_agree (bs : List ℕ) (h8 : bs.length = 8)
    (hb : ∀ b ∈ bs, b < 256) :
    snowflake_normalize (urlsafe_b64encode bs) = .ok (64, (int_from_bytes_be bs : ℤ))
    ∧ snowflake_normalize (nat_to_decimal_string (int_from_bytes_be bs))
        = .ok (64, (int_from_bytes_be bs : ℤ)) := by
  constructor
  · rcases bs with _ | ⟨b0, _ | ⟨b1, _ | ⟨b2, _ | ⟨b3, _ | ⟨b4, _ | ⟨b5, _ | ⟨b6,
      _ | ⟨b7, _ | ⟨b8, tl⟩⟩⟩⟩⟩⟩⟩⟩⟩ <;>
      simp only [List.length_cons, List.length_nil] at h8 <;> try omega
    have hb0 : b0 < 256 := hb _ (by simp)
    have hb1 : b1 < 256 := hb _ (by simp)
    have hb2 : b2 < 256 := hb _ (by simp)
    have hb3 : b3 < 256 := hb _ (by simp)
    have hb4 : b4 < 256 := hb _ (by simp)
    have hb5 : b5 < 256 := hb _ (by simp)
    have hb6 : b6 < 256 := hb _ (by simp)
    have hb7 : b7 < 256 := hb _ (by simp)
    have hparse : py_int_parse (urlsafe_b64encode [b0, b1, b2, b3, b4, b5, b6, b7]) = none := by
      show py_int_parse_chars (b64_encode_groups [b0, b1, b2, b3, b4, b5, b6, b7]) = none
      simp only [b64_encode_groups]
      exact py_int_parse_chars_pad_none _ _ (by simp)
    have hdata : (urlsafe_b64encode [b0, b1, b2, b3, b4, b5, b6, b7] ++ "==").data
        = b64_encode_groups [b0, b1, b2, b3, b4, b5, b6, b7] ++ ['=', '='] := rfl
    have e0 : b64_char_val (urlsafe_translate (urlsafe_char (b0 / 4))) = some (b0 / 4) :=
      b64_char_val_urlsafe _ (by omega)
    have e1 : b64_char_val (urlsafe_translate (urlsafe_char ((b0 % 4) * 16 + b1 / 16)))
        = some ((b0 % 4) * 16 + b1 / 16) := b64_char_val_urlsafe _ (by omega)
    have e2 : b64_char_val (urlsafe_translate (urlsafe_char ((b1 % 16) * 4 + b2 / 64)))
        = some ((b1 % 16) * 4 + b2 / 64) := b64_char_val_urlsafe _ (by omega)
    have e3 : b64_char_val (urlsafe_translate (urlsafe_char (b2 % 64))) = some (b2 % 64) :=
      b64_char_val_urlsafe _ (by omega)
    have e4 : b64_char_val (urlsafe_translate (urlsafe_char (b3 / 4))) = some (b3 / 4) :=
      b64_char_val_urlsafe _ (by omega)
    have e5 : b64_char_val (urlsafe_translate (urlsafe_char ((b3 % 4) * 16 + b4 / 16)))
        = some ((b3 % 4) * 16 + b4 / 16) := b64_char_val_urlsafe _ (by omega)
    have e6 : b64_char_val (urlsafe_translate (urlsafe_char ((b4 % 16) * 4 + b5 / 64)))
        = some ((b4 % 16) * 4 + b5 / 64) := b64_char_val_urlsafe _ (by omega)
    have e7 : b64_char_val (urlsafe_translate (urlsafe_char (b5 % 64))) = some (b5 % 64) :=
      b64_char_val_urlsafe _ (by omega)
    have e8 : b64_char_val (urlsafe_translate (urlsafe_char (b6 / 4))) = some (b6 / 4) :=
      b64_char_val_urlsafe _ (by omega)
    have e9 : b64_char_val (urlsafe_translate (urlsafe_char ((b6 % 4) * 16 + b7 / 16)))
        = some ((b6 % 4) * 16 + b7 / 16) := b64_char_val_urlsafe _ (by omega)
    have e10 : b64_char_val (urlsafe_translate (urlsafe_char ((b7 % 16) * 4)))
        = some ((b7 % 16) * 4) := b64_char_val_urlsafe _ (by omega)
    have epad : b64_char_val (urlsafe_translate '=') = none := by decide
    have hdec : urlsafe_b64decode (urlsafe_b64encode [b0, b1, b2, b3, b4, b5, b6, b7] ++ "==")
        = .ok [b0, b1, b2, b3, b4, b5, b6, b7] := by
      unfold urlsafe_b64decode
      rw [hdata]
      simp only [b64_encode_groups, List.cons_append, List.nil_append, List.map_cons,
        List.map_nil]
      unfold a2b_base64
      simp only [List.filterMap_cons, e0, e1, e2, e3, e4, e5, e6, e7, e8, e9, e10, epad,
        List.filterMap_nil]
      simp only [List.length_cons, List.length_nil]
      rw [if_neg (by norm_num)]
      simp only [quads_to_bytes]
      have f0 : b0 / 4 * 4 + ((b0 % 4) * 16 + b1 / 16) / 16 = b0 := by omega
      have f1 : (((b0 % 4) * 16 + b1 / 16) % 16) * 16 + ((b1 % 16) * 4 + b2 / 64) / 4 = b1 := by
        omega
      have f2 : (((b1 % 16) * 4 + b2 / 64) % 4) * 64 + b2 % 64 = b2 := by omega
      have f3 : b3 / 4 * 4 + ((b3 % 4) * 16 + b4 / 16) / 16 = b3 := by omega
      have f4 : (((b3 % 4) * 16 + b4 / 16) % 16) * 16 + ((b4 % 16) * 4 + b5 / 64) / 4 = b4 := by
        omega
      have f5 : (((b4 % 16) * 4 + b5 / 64) % 4) * 64 + b5 % 64 = b5 := by omega
      have f6 : b6 / 4 * 4 + ((b6 % 4) * 16 + b7 / 16) / 16 = b6 := by omega
      have f7 : (((b6 % 4) * 16 + b7 / 16) % 16) * 16 + ((b7 % 16) * 4) / 4 = b7 := by omega
      rw [f0, f1, f2, f3, f4, f5, f6, f7]
    simp only [snowflake_normalize, hparse, hdec, List.length_cons, List.length_nil]
  · simp only [snowflake_normalize, py_int_parse_decimal]
end Snowflake

namespace Snowflake

/-- C6: the input `'not-a-number-or-base64!!!'` is not rejected: `int()`
fails, but `urlsafe_b64decode` (non-strict) discards the three `'!'`
characters, leaving 22 base64 data characters, which decode to 16 bytes — so
normalization silently succeeds with width 128 and a garbage value rather
than failing with any malformed-identifier error. -/
theorem malformed_input_silently_decodes :
    snowflake_normalize "not-a-number-or-base64!!!"
      = .ok (128, 210742316730774955639584891827970055915) := by decide

end Snowflake

namespace Snowflake

/-- Witness for `base64_and_decimal_agree` on the bytes
`[1, 2, 3, 250, 251, 252, 253, 254]` (encoding `AQID-vv8_f4=`). -/
theorem base64_and_decimal_agree_witness :
    snowflake_normalize (urlsafe_b64encode [1, 2, 3, 250, 251, 252, 253, 254])
      = .ok (64, (int_from_bytes_be [1, 2, 3, 250, 251, 252, 253, 254] : ℤ))
    ∧ snowflake_normalize
        (nat_to_decimal_string (int_from_bytes_be [1, 2, 3, 250, 251, 252, 253, 254]))
      = .ok (64, (int_from_bytes_be [1, 2, 3, 250, 251, 252, 253, 254] : ℤ)) :=
  base64_and_decimal_agree [1, 2, 3, 250, 251, 252, 253, 254] rfl (by decide)

end Snowflake
